import Mathlib

/-!
Verification of `cmd/contact-auditor/main.go` (boulder contact-auditor).

The auditor streams rows `(id, contact, createdAt)` from a database cursor,
decodes each `contact` payload as a JSON array of strings, validates every
contact string against policy rules, and writes one tab-separated diagnostic
line per problem found.

The embedding below models:
  * `unmarshalContact` — `json.Unmarshal` of the payload into `[]string`;
    the JSON decoder itself is Go's `encoding/json` (external to the repo)
    and is modelled here by a recursive-descent parser for the relevant
    target type (JSON `null`, or an array of JSON strings);
  * `validateContacts` — the per-record validation loop and its
    `strings.Builder` problem buffer;
  * `writeResults` — the dual-destination (stdout / results file) sink;
  * `run` — the cursor-consumption loop, with the cursor abstracted as the
    list of row-read (`rows.Scan`) outcomes plus the `rows.Close` outcome,
    and the optional test channel `resChan` abstracted as a message list
    plus a closed flag.

Go's `%q` verb (strconv quoting) is embedded as `goQuote`; non-ASCII runes
are modelled as printable and emitted verbatim (Go escapes non-printable
Unicode, which no claim here exercises), and `\u` escapes in the JSON
decoder do not combine surrogate pairs.
-/

namespace ContactAuditor

/-! ### JSON payload decoding (model of `encoding/json` for `[]string`) -/

/-- JSON insignificant whitespace, as accepted by Go's `encoding/json`. -/
def isJsonWs (c : Char) : Bool :=
  c = ' ' || c = '\t' || c = '\n' || c = '\r'

/-- Drop leading JSON whitespace. -/
def skipWs : List Char → List Char
  | [] => []
  | c :: r => if isJsonWs c then skipWs r else c :: r

/-- Value of a hexadecimal digit character. -/
def hexVal (c : Char) : Option Nat :=
  if '0' ≤ c ∧ c ≤ '9' then some (c.toNat - 48)
  else if 'a' ≤ c ∧ c ≤ 'f' then some (c.toNat - 87)
  else if 'A' ≤ c ∧ c ≤ 'F' then some (c.toNat - 55)
  else none

/-- Single-character JSON string escapes (`\"`, `\\`, `\/`, `\b`, `\f`,
`\n`, `\r`, `\t`). -/
def escChar (e : Char) : Option Char :=
  if e = '"' then some '"'
  else if e = '\\' then some '\\'
  else if e = '/' then some '/'
  else if e = 'b' then some (Char.ofNat 8)
  else if e = 'f' then some (Char.ofNat 12)
  else if e = 'n' then some '\n'
  else if e = 'r' then some '\r'
  else if e = 't' then some '\t'
  else none

/-- Parse the body of a JSON string (the opening quote already consumed),
returning the decoded characters and the rest of the input.  Fuel-indexed;
callers pass the input length plus one. -/
def parseStrBody : Nat → List Char → Option (List Char × List Char)
  | 0, _ => none
  | _, [] => none
  | fuel + 1, c :: r =>
    if c = '"' then some ([], r)
    else if c = '\\' then
      match r with
      | [] => none
      | e :: r2 =>
        if e = 'u' then
          match r2 with
          | h1 :: h2 :: h3 :: h4 :: r3 =>
            match hexVal h1, hexVal h2, hexVal h3, hexVal h4 with
            | some a, some b, some c2, some d =>
              (parseStrBody fuel r3).map
                (fun p => (Char.ofNat (4096 * a + 256 * b + 16 * c2 + d) :: p.1, p.2))
            | _, _, _, _ => none
          | _ => none
        else
          match escChar e with
          | some ec => (parseStrBody fuel r2).map (fun p => (ec :: p.1, p.2))
          | none => none
    else if c.toNat < 32 then none
    else (parseStrBody fuel r).map (fun p => (c :: p.1, p.2))

/-- Parse the elements of a non-empty JSON array of strings (the opening
bracket already consumed), returning the decoded strings and the rest of
the input after the closing bracket. -/
def parseElems : Nat → List Char → Option (List String × List Char)
  | 0, _ => none
  | fuel + 1, l =>
    match skipWs l with
    | '"' :: r =>
      match parseStrBody (r.length + 1) r with
      | some (s, rest) =>
        match skipWs rest with
        | ',' :: r2 => (parseElems fuel r2).map (fun p => (String.mk s :: p.1, p.2))
        | ']' :: r2 => some ([String.mk s], r2)
        | _ => none
      | none => none
    | _ => none

/-- Modelled from Go's `encoding/json`: `json.Unmarshal(payload, &[]string)`.
Accepts the `null` literal (leaving the slice `nil`, i.e. the empty list),
the empty array, and arrays of JSON strings; anything else — a non-array
top-level value, a non-string element, malformed syntax, or trailing
data — is a decode error.  Error messages are abbreviations of Go's. -/
def jsonUnmarshalStrings (payload : String) : Except String (List String) :=
  match skipWs payload.data with
  | [] => Except.error "unexpected end of JSON input"
  | 'n' :: 'u' :: 'l' :: 'l' :: rest =>
    if (skipWs rest).isEmpty then Except.ok []
    else Except.error "invalid character after top-level value"
  | '[' :: rest =>
    match skipWs rest with
    | ']' :: rest2 =>
      if (skipWs rest2).isEmpty then Except.ok []
      else Except.error "invalid character after top-level value"
    | _ =>
      match parseElems (rest.length + 1) rest with
      | some (elems, rest2) =>
        if (skipWs rest2).isEmpty then Except.ok elems
        else Except.error "invalid character after top-level value"
      | none => Except.error "invalid JSON array of strings"
  | _ => Except.error "json: cannot unmarshal value into Go value of type []string"

/-- Embeds `unmarshalContact`: decode the raw `contact` column as a JSON
array of strings; on failure return the error (the Go function returns
`nil, err`, so the caller's `contacts` is the empty list). -/
def unmarshalContact (contact : String) : Except String (List String) :=
  jsonUnmarshalStrings contact

/-! ### Go `%q` quoting (model of `strconv` quoting used by `fmt`) -/

/-- Lower-case hexadecimal digit, as Go's `lowerhex` table. -/
def hexDigit (n : Nat) : Char :=
  "0123456789abcdef".data.getD n '0'

/-- Quote one character the way Go's `%q` quotes a rune inside a string:
escape `"` and `\`, keep printable ASCII, use the named escapes for
`\a \b \f \n \r \t \v`, and `\xhh` for other control bytes.  Non-ASCII
runes are modelled as printable and emitted verbatim. -/
def goQuoteChar (c : Char) : List Char :=
  if c = '"' then ['\\', '"']
  else if c = '\\' then ['\\', '\\']
  else if 32 ≤ c.toNat ∧ c.toNat ≤ 126 then [c]
  else if c.toNat = 7 then ['\\', 'a']
  else if c.toNat = 8 then ['\\', 'b']
  else if c.toNat = 12 then ['\\', 'f']
  else if c = '\n' then ['\\', 'n']
  else if c = '\r' then ['\\', 'r']
  else if c = '\t' then ['\\', 't']
  else if c.toNat = 11 then ['\\', 'v']
  else if c.toNat < 32 ∨ c.toNat = 127 then
    ['\\', 'x', hexDigit (c.toNat / 16), hexDigit (c.toNat % 16)]
  else [c]

/-- Go's `%q` on a string: double-quote delimited, characters escaped by
`goQuoteChar`. -/
def goQuote (s : String) : String :=
  String.mk ('"' :: (s.data.map goQuoteChar).flatten ++ ['"'])

/-! ### validateContacts -/

/-- The literal URI scheme tag required of every contact. -/
def mailtoTag : String := "mailto:"

/-- Embeds `strings.HasPrefix(contact, "mailto:")` (a byte-prefix test in
Go, a character-prefix test on this side of the embedding). -/
def hasMailtoTag (contact : String) : Bool :=
  mailtoTag.data.isPrefixOf contact.data

/-- The check applied to one contact string, mirroring the loop body of
`validateContacts`: a contact without the `mailto:` tag fails with the
fixed reason; otherwise the tag is stripped (`strings.TrimPrefix`) and the
remainder is passed to the external `policy.ValidEmail`, abstracted as
`check : String → Option String` returning the failure message if any.
`some reason` means the contact fails with that reason. -/
def contactProb (check : String → Option String) (contact : String) : Option String :=
  if hasMailtoTag contact then check (contact.drop mailtoTag.length)
  else some "missing 'mailto:' prefix"

/-- One formatted validation-problem line, as written by `writeProb`:
`fmt.Fprintf(&probsBuff, "%d\t%s\tvalidation\t%q\t%q\n", id, createdAt, contact, prob)`. -/
def probLine (id : Int) (createdAt contact prob : String) : String :=
  toString id ++ "\t" ++ createdAt ++ "\tvalidation\t" ++
    goQuote contact ++ "\t" ++ goQuote prob ++ "\n"

/-- The contribution of one contact to the problem buffer: its formatted
line when it fails, nothing when it passes. -/
def lineOf (check : String → Option String) (id : Int) (createdAt contact : String) : String :=
  match contactProb check contact with
  | some p => probLine id createdAt contact p
  | none => ""

/-- Left-to-right concatenation, modelling the `strings.Builder` that
accumulates the per-contact lines in order. -/
def concatAll : List String → String
  | [] => ""
  | s :: rest => s ++ concatAll rest

/-- Embeds `validateContacts`: append one problem line per failing contact,
in contact order, to the buffer; return the buffer as an error when it is
non-empty (`probsBuff.Len() != 0`), `none` otherwise. -/
def validateContacts (check : String → Option String) (id : Int) (createdAt : String)
    (contacts : List String) : Option String :=
  let probs := concatAll (contacts.map (lineOf check id createdAt))
  if probs.length ≠ 0 then some probs else none

/-- The failing contacts of a record, paired with their failure reasons,
in contact order. -/
def failingContacts (check : String → Option String) (contacts : List String) :
    List (String × String) :=
  contacts.filterMap (fun c => (contactProb check c).map (fun p => (c, p)))

/-! ### writeResults -/

/-- An output destination of the auditor. -/
inductive Dest
  | stdout
  | file
deriving DecidableEq

/-- The sink configuration: `writeToStdout` flag and whether a results
file is open (`resultsFile != nil`). -/
structure WriterCfg where
  writeToStdout : Bool
  hasResultsFile : Bool

/-- What one `writeResults` call did: which destinations it attempted,
which received the line, and the error log entries it produced.  The Go
function returns nothing — failures are logged, never raised — so the
outcome carries no error component. -/
structure WriteOutcome where
  attempted : List Dest
  delivered : List Dest
  logs : List String
deriving DecidableEq

/-- Embeds `writeResults`: try stdout when configured, then the results
file when open; a failed write is logged (`logger.Errf`) and does not stop
the other destination's write.  `stdoutOk` / `fileOk` model whether the
underlying I/O succeeds. -/
def writeResults (cfg : WriterCfg) (stdoutOk fileOk : Bool) (_line : String) : WriteOutcome :=
  let s : WriteOutcome :=
    if cfg.writeToStdout then
      if stdoutOk then ⟨[Dest.stdout], [Dest.stdout], []⟩
      else ⟨[Dest.stdout], [], ["Error while writing result to stdout"]⟩
    else ⟨[], [], []⟩
  let f : WriteOutcome :=
    if cfg.hasResultsFile then
      if fileOk then ⟨[Dest.file], [Dest.file], []⟩
      else ⟨[Dest.file], [], ["Error while writing result to file"]⟩
    else ⟨[], [], []⟩
  ⟨s.attempted ++ f.attempted, s.delivered ++ f.delivered, s.logs ++ f.logs⟩

/-! ### run -/

/-- One row scanned from the audit query cursor. -/
structure Row where
  id : Int
  contact : String
  createdAt : String
deriving DecidableEq

/-- The `result` struct sent over the test channel `resChan`. -/
structure result where
  id : Int
  contacts : List String
  createdAt : String
deriving DecidableEq

/-- The one formatted unmarshal-problem line:
`fmt.Sprintf("%d\t%s\tunmarshal\t%q\t%q\n", id, createdAt, contact, err)`. -/
def unmarshalLine (id : Int) (createdAt contact errMsg : String) : String :=
  toString id ++ "\t" ++ createdAt ++ "\tunmarshal\t" ++
    goQuote contact ++ "\t" ++ goQuote errMsg ++ "\n"

/-- What `run` produced: the result lines passed to `writeResults` in
order, the error returned to the caller, the messages sent over `resChan`
(when present), and whether `resChan` was closed. -/
structure RunOutcome where
  lines : List String
  runErr : Option String
  chanMsgs : List result
  chanClosed : Bool
deriving DecidableEq

/-- The body of `run`'s loop for one successfully scanned row: decode the
payload (an error yields one unmarshal line and leaves `contacts` empty),
then validate — also after a decode failure, on the empty list, exactly as
the source falls through — and emit the aggregated validation error if
any.  Returns the lines written and the `contacts` value sent to
`resChan`. -/
def processRow (check : String → Option String) (row : Row) : List String × List String :=
  let dec := unmarshalContact row.contact
  let contacts := match dec with
    | Except.ok cs => cs
    | Except.error _ => []
  let uLines := match dec with
    | Except.ok _ => []
    | Except.error e => [unmarshalLine row.id row.createdAt row.contact e]
  let vLines := match validateContacts check row.id row.createdAt contacts with
    | some s => [s]
    | none => []
  (uLines ++ vLines, contacts)

/-- Embeds `run`'s cursor-consumption loop, after `beginAuditQuery` has
succeeded.  The cursor is the list of per-row `rows.Scan` outcomes
(`Except.error` for a failed scan) followed by the `rows.Close` outcome
`closeErr`.  A scan error returns immediately — later rows are not
consumed and `resChan` is not closed; a close error is returned after all
rows were consumed; otherwise `resChan` is closed (when present) and the
run succeeds.  `hasChan` models `resChan != nil`. -/
def run (check : String → Option String) (hasChan : Bool) :
    List (Except String Row) → Option String → RunOutcome
  | [], closeErr =>
    match closeErr with
    | some e => ⟨[], some e, [], false⟩
    | none => ⟨[], none, [], hasChan⟩
  | Except.error e :: _, _ => ⟨[], some e, [], false⟩
  | Except.ok row :: rest, closeErr =>
    ⟨(processRow check row).1 ++ (run check hasChan rest closeErr).lines,
      (run check hasChan rest closeErr).runErr,
      (if hasChan then [⟨row.id, (processRow check row).2, row.createdAt⟩] else [])
        ++ (run check hasChan rest closeErr).chanMsgs,
      (run check hasChan rest closeErr).chanClosed⟩

/-! ### Auxiliary definitions used by the statements -/

/-- Number of newline characters in a string; the report format is one
newline-terminated line per problem, so on newline-free field values this
is the report's line count. -/
def newlineCount (s : String) : Nat := s.data.count '\n'

/-- The `contacts` value `run` holds after decoding one row: the decoded
list, or the empty list when decoding failed (`unmarshalContact` returned
`nil, err`). -/
def decodedContacts (r : Row) : List String :=
  match unmarshalContact r.contact with
  | Except.ok cs => cs
  | Except.error _ => []

/-- A concrete email-syntax checker used to instantiate the theorems on
concrete inputs: it rejects exactly the address `bad`. -/
def checkStub : String → Option String :=
  fun s => if s = "bad" then some "invalid email" else none

/-- Concrete contact list exercising both failure reasons. -/
def sampleContacts : List String := ["tel:+123", "mailto:bad"]

/-- The aggregated problem buffer `validateContacts checkStub 7 "2024-01-01"
sampleContacts` produces. -/
def sampleProbs : String :=
  "7\t2024-01-01\tvalidation\t\"tel:+123\"\t\"missing 'mailto:' prefix\"\n" ++
  "7\t2024-01-01\tvalidation\t\"mailto:bad\"\t\"invalid email\"\n"

/-- The decode-error message of the model for a non-JSON payload. -/
def jsonTypeErr : String := "json: cannot unmarshal value into Go value of type []string"

/-- A row whose payload decodes and whose contacts all pass `checkStub`. -/
def row0 : Row := ⟨7, "[\"mailto:ok@x\"]", "2024-01-01"⟩

/-- A row whose payload decodes but whose contact fails `checkStub`. -/
def row1 : Row := ⟨8, "[\"mailto:bad\"]", "2024-01-02"⟩

/-- A cursor whose second row read fails. -/
def cursor0 : List (Except String Row) :=
  [Except.ok row0, Except.error "connection reset", Except.ok row1]

/-! ### Helper lemmas -/

theorem digitChar_ne_nl (n : Nat) : Nat.digitChar n ≠ '\n' := by
  rcases Nat.lt_or_ge n 16 with h | h
  · interval_cases n <;> decide
  · unfold Nat.digitChar
    repeat rw [if_neg (by omega)]
    decide

theorem toDigitsCore_no_nl (b fuel n : Nat) (ds : List Char)
    (h : ∀ c ∈ ds, c ≠ '\n') : ∀ c ∈ Nat.toDigitsCore b fuel n ds, c ≠ '\n' := by
  induction fuel generalizing n ds with
  | zero => simpa [Nat.toDigitsCore] using h
  | succ f ih =>
    rw [Nat.toDigitsCore]
    split
    · intro c hc
      rcases List.mem_cons.mp hc with h1 | h2
      · subst h1
        exact digitChar_ne_nl (n % b)
      · exact h c h2
    · refine ih _ _ ?_
      intro c hc
      rcases List.mem_cons.mp hc with h1 | h2
      · subst h1
        exact digitChar_ne_nl (n % b)
      · exact h c h2

theorem natRepr_no_nl (n : Nat) : '\n' ∉ (Nat.repr n).data := by
  intro h
  exact toDigitsCore_no_nl 10 (n + 1) n [] (by simp) '\n' h rfl

theorem intRepr_no_nl (i : Int) : '\n' ∉ (toString i).data := by
  cases i with
  | ofNat m => simpa [toString, Int.repr] using natRepr_no_nl m
  | negSucc m =>
    simp only [toString, Int.repr, String.data_append]
    intro h
    rcases List.mem_append.mp h with h1 | h2
    · simp at h1
    · exact natRepr_no_nl _ h2

theorem hexDigit_no_nl (n : Nat) : hexDigit n ≠ '\n' := by
  unfold hexDigit
  rw [List.getD_eq_getElem?_getD]
  rcases h : "0123456789abcdef".data[n]? with _ | x
  · decide
  · have hx : x ∈ "0123456789abcdef".data := List.getElem?_mem h
    simp only [Option.getD_some]
    intro he
    rw [he] at hx
    revert hx
    decide

theorem goQuoteChar_no_nl (c : Char) : '\n' ∉ goQuoteChar c := by
  intro hm
  unfold goQuoteChar at hm
  by_cases h1 : c = '"'
  · rw [if_pos h1] at hm; exact absurd hm (by decide)
  rw [if_neg h1] at hm
  by_cases h2 : c = '\\'
  · rw [if_pos h2] at hm; exact absurd hm (by decide)
  rw [if_neg h2] at hm
  by_cases h3 : 32 ≤ c.toNat ∧ c.toNat ≤ 126
  · rw [if_pos h3] at hm
    have hc : '\n' = c := List.mem_singleton.mp hm
    rw [← hc] at h3
    exact absurd h3 (by decide)
  rw [if_neg h3] at hm
  by_cases h4 : c.toNat = 7
  · rw [if_pos h4] at hm; exact absurd hm (by decide)
  rw [if_neg h4] at hm
  by_cases h5 : c.toNat = 8
  · rw [if_pos h5] at hm; exact absurd hm (by decide)
  rw [if_neg h5] at hm
  by_cases h6 : c.toNat = 12
  · rw [if_pos h6] at hm; exact absurd hm (by decide)
  rw [if_neg h6] at hm
  by_cases h7 : c = '\n'
  · rw [if_pos h7] at hm; exact absurd hm (by decide)
  rw [if_neg h7] at hm
  by_cases h8 : c = '\r'
  · rw [if_pos h8] at hm; exact absurd hm (by decide)
  rw [if_neg h8] at hm
  by_cases h9 : c = '\t'
  · rw [if_pos h9] at hm; exact absurd hm (by decide)
  rw [if_neg h9] at hm
  by_cases h10 : c.toNat = 11
  · rw [if_pos h10] at hm; exact absurd hm (by decide)
  rw [if_neg h10] at hm
  by_cases h11 : c.toNat < 32 ∨ c.toNat = 127
  · rw [if_pos h11] at hm
    simp only [List.mem_cons, List.not_mem_nil, or_false] at hm
    rcases hm with h | h | h | h
    · exact absurd h (by decide)
    · exact absurd h (by decide)
    · exact hexDigit_no_nl _ h.symm
    · exact hexDigit_no_nl _ h.symm
  rw [if_neg h11] at hm
  have hc : '\n' = c := List.mem_singleton.mp hm
  exact h7 hc.symm

theorem goQuote_no_nl (s : String) : '\n' ∉ (goQuote s).data := by
  unfold goQuote
  intro hm
  rcases List.mem_cons.mp hm with h | h
  · exact absurd h (by decide)
  rcases List.mem_append.mp h with h | h
  · rcases List.mem_flatten.mp h with ⟨l, hl, hnl⟩
    rcases List.mem_map.mp hl with ⟨c, _, rfl⟩
    exact goQuoteChar_no_nl c hnl
  · exact absurd h (by decide)

theorem newlineCount_append (a b : String) :
    newlineCount (a ++ b) = newlineCount a + newlineCount b := by
  unfold newlineCount
  rw [String.data_append, List.count_append]

theorem newlineCount_probLine (id : Int) (ca c p : String) (hca : '\n' ∉ ca.data) :
    newlineCount (probLine id ca c p) = 1 := by
  have h1 : newlineCount (toString id) = 0 := List.count_eq_zero.mpr (intRepr_no_nl id)
  have h2 : newlineCount ca = 0 := List.count_eq_zero.mpr hca
  have h3 : newlineCount (goQuote c) = 0 := List.count_eq_zero.mpr (goQuote_no_nl c)
  have h4 : newlineCount (goQuote p) = 0 := List.count_eq_zero.mpr (goQuote_no_nl p)
  unfold probLine
  rw [newlineCount_append, newlineCount_append, newlineCount_append, newlineCount_append,
    newlineCount_append, newlineCount_append, newlineCount_append, h1, h2, h3, h4]
  norm_num
  rfl

theorem concatAll_length (l : List String) :
    (concatAll l).length = (l.map String.length).sum := by
  induction l with
  | nil => rfl
  | cons s rest ih => simp [concatAll, String.length_append, ih]

theorem probLine_length_pos (id : Int) (ca c p : String) :
    0 < (probLine id ca c p).length := by
  unfold probLine
  rw [String.length_append, String.length_append, String.length_append,
    String.length_append, String.length_append, String.length_append,
    String.length_append]
  have h : ("\n" : String).length = 1 := rfl
  omega

theorem lineOf_length_zero_iff (check : String → Option String) (id : Int) (ca c : String) :
    (lineOf check id ca c).length = 0 ↔ contactProb check c = none := by
  cases h : contactProb check c with
  | none => simp [lineOf, h]
  | some p =>
    have hp := probLine_length_pos id ca c p
    simp [lineOf, h]
    omega

theorem concat_lineOf_eq (check : String → Option String) (id : Int) (ca : String) :
    ∀ contacts : List String,
      concatAll (contacts.map (lineOf check id ca))
        = concatAll ((failingContacts check contacts).map
            (fun cp => probLine id ca cp.1 cp.2)) := by
  intro contacts
  induction contacts with
  | nil => rfl
  | cons c rest ih =>
    cases h : contactProb check c with
    | none => simp [failingContacts, List.filterMap_cons, h, concatAll, lineOf, ih]
    | some p => simp [failingContacts, List.filterMap_cons, h, concatAll, lineOf, ih]

theorem newlineCount_lines (id : Int) (ca : String) (hca : '\n' ∉ ca.data) :
    ∀ lps : List (String × String),
      newlineCount (concatAll (lps.map (fun cp => probLine id ca cp.1 cp.2)))
        = lps.length := by
  intro lps
  induction lps with
  | nil => rfl
  | cons cp rest ih =>
    simp only [List.map_cons, concatAll, newlineCount_append, ih,
      newlineCount_probLine id ca cp.1 cp.2 hca, List.length_cons]
    omega

theorem validateContacts_eq (check : String → Option String) (id : Int) (ca : String)
    (contacts : List String) :
    validateContacts check id ca contacts =
      if (concatAll (contacts.map (lineOf check id ca))).length ≠ 0 then
        some (concatAll (contacts.map (lineOf check id ca)))
      else none := rfl

theorem validateContacts_nil (check : String → Option String) (id : Int) (ca : String) :
    validateContacts check id ca [] = none := rfl

theorem validateContacts_none_iff_aux (check : String → Option String) (id : Int)
    (ca : String) (contacts : List String) :
    validateContacts check id ca contacts = none ↔
      ∀ c ∈ contacts, contactProb check c = none := by
  rw [validateContacts_eq]
  have hlen : (concatAll (contacts.map (lineOf check id ca))).length = 0 ↔
      ∀ c ∈ contacts, contactProb check c = none := by
    rw [concatAll_length, List.map_map, List.sum_eq_zero_iff]
    constructor
    · intro h c hc
      exact (lineOf_length_zero_iff check id ca c).mp (h _ (List.mem_map_of_mem _ hc))
    · intro h x hx
      rcases List.mem_map.mp hx with ⟨c, hc, rfl⟩
      exact (lineOf_length_zero_iff check id ca c).mpr (h c hc)
  by_cases h : (concatAll (contacts.map (lineOf check id ca))).length ≠ 0
  · rw [if_pos h]
    constructor
    · intro hc
      exact Option.noConfusion hc
    · intro hall
      exact absurd (hlen.mpr hall) h
  · rw [if_neg h]
    push_neg at h
    simp only [true_iff]
    exact hlen.mp h

theorem validateContacts_single (check : String → Option String) (id : Int)
    (ca c p : String) (hp : contactProb check c = some p) :
    validateContacts check id ca [c] = some (probLine id ca c p) := by
  have hpos := probLine_length_pos id ca c p
  rw [validateContacts_eq]
  have hl : lineOf check id ca c = probLine id ca c p := by
    unfold lineOf
    rw [hp]
  simp only [List.map_cons, List.map_nil, concatAll, hl, String.append_empty]
  rw [if_pos (by omega)]

theorem processRow_ok (check : String → Option String) (row : Row) (cs : List String)
    (h : unmarshalContact row.contact = Except.ok cs) :
    processRow check row =
      ((match validateContacts check row.id row.createdAt cs with
        | some s => [s]
        | none => []), cs) := by
  unfold processRow
  rw [h]
  rfl

theorem processRow_error (check : String → Option String) (row : Row) (e : String)
    (h : unmarshalContact row.contact = Except.error e) :
    processRow check row = ([unmarshalLine row.id row.createdAt row.contact e], []) := by
  unfold processRow
  rw [h]
  rfl

theorem processRow_snd (check : String → Option String) (row : Row) :
    (processRow check row).2 = decodedContacts row := by
  unfold processRow decodedContacts
  cases unmarshalContact row.contact <;> rfl

/-! Projection equations for `run`. -/

theorem run_lines_nil (check : String → Option String) (hasChan : Bool)
    (closeErr : Option String) : (run check hasChan [] closeErr).lines = [] := by
  cases closeErr <;> rfl

theorem run_err_nil (check : String → Option String) (hasChan : Bool)
    (closeErr : Option String) : (run check hasChan [] closeErr).runErr = closeErr := by
  cases closeErr <;> rfl

theorem run_msgs_nil (check : String → Option String) (hasChan : Bool)
    (closeErr : Option String) : (run check hasChan [] closeErr).chanMsgs = [] := by
  cases closeErr <;> rfl

theorem run_closed_nil_none (check : String → Option String) (hasChan : Bool) :
    (run check hasChan [] none).chanClosed = hasChan := rfl

theorem run_closed_nil_some (check : String → Option String) (hasChan : Bool) (e : String) :
    (run check hasChan [] (some e)).chanClosed = false := rfl

theorem run_lines_cons_error (check : String → Option String) (hasChan : Bool) (e : String)
    (rest : List (Except String Row)) (closeErr : Option String) :
    (run check hasChan (Except.error e :: rest) closeErr).lines = [] := rfl

theorem run_err_cons_error (check : String → Option String) (hasChan : Bool) (e : String)
    (rest : List (Except String Row)) (closeErr : Option String) :
    (run check hasChan (Except.error e :: rest) closeErr).runErr = some e := rfl

theorem run_msgs_cons_error (check : String → Option String) (hasChan : Bool) (e : String)
    (rest : List (Except String Row)) (closeErr : Option String) :
    (run check hasChan (Except.error e :: rest) closeErr).chanMsgs = [] := rfl

theorem run_closed_cons_error (check : String → Option String) (hasChan : Bool) (e : String)
    (rest : List (Except String Row)) (closeErr : Option String) :
    (run check hasChan (Except.error e :: rest) closeErr).chanClosed = false := rfl

theorem run_lines_cons_ok (check : String → Option String) (hasChan : Bool) (row : Row)
    (rest : List (Except String Row)) (closeErr : Option String) :
    (run check hasChan (Except.ok row :: rest) closeErr).lines
      = (processRow check row).1 ++ (run check hasChan rest closeErr).lines := rfl

theorem run_err_cons_ok (check : String → Option String) (hasChan : Bool) (row : Row)
    (rest : List (Except String Row)) (closeErr : Option String) :
    (run check hasChan (Except.ok row :: rest) closeErr).runErr
      = (run check hasChan rest closeErr).runErr := rfl

theorem run_msgs_cons_ok (check : String → Option String) (hasChan : Bool) (row : Row)
    (rest : List (Except String Row)) (closeErr : Option String) :
    (run check hasChan (Except.ok row :: rest) closeErr).chanMsgs
      = (if hasChan then [⟨row.id, (processRow check row).2, row.createdAt⟩] else [])
          ++ (run check hasChan rest closeErr).chanMsgs := rfl

theorem run_closed_cons_ok (check : String → Option String) (hasChan : Bool) (row : Row)
    (rest : List (Except String Row)) (closeErr : Option String) :
    (run check hasChan (Except.ok row :: rest) closeErr).chanClosed
      = (run check hasChan rest closeErr).chanClosed := rfl

/-! Inductive facts about `run`. -/

theorem run_err_none_iff (check : String → Option String) (hasChan : Bool)
    (closeErr : Option String) : ∀ rows : List (Except String Row),
    (run check hasChan rows closeErr).runErr = none ↔
      (∀ x ∈ rows, ∃ r, x = Except.ok r) ∧ closeErr = none := by
  intro rows
  induction rows with
  | nil =>
    rw [run_err_nil]
    simp
  | cons x rest ih =>
    cases x with
    | error e =>
      rw [run_err_cons_error]
      constructor
      · intro h
        exact Option.noConfusion h
      · rintro ⟨hall, -⟩
        rcases hall (Except.error e) (List.mem_cons_self _ _) with ⟨r, hr⟩
        exact Except.noConfusion hr
    | ok row =>
      rw [run_err_cons_ok, ih]
      constructor
      · rintro ⟨hall, hce⟩
        refine ⟨fun x hx => ?_, hce⟩
        rcases List.mem_cons.mp hx with h | h
        · exact ⟨row, h⟩
        · exact hall x h
      · rintro ⟨hall, hce⟩
        exact ⟨fun x hx => hall x (List.mem_cons_of_mem _ hx), hce⟩

theorem run_lines_flatMap (check : String → Option String) (hasChan : Bool)
    (closeErr : Option String) : ∀ rows : List Row,
    (run check hasChan (rows.map Except.ok) closeErr).lines
      = rows.flatMap (fun r => (processRow check r).1) := by
  intro rows
  induction rows with
  | nil =>
    rw [List.map_nil, run_lines_nil, List.flatMap_nil]
  | cons r rest ih =>
    rw [List.map_cons, run_lines_cons_ok, ih, List.flatMap_cons]

theorem run_scan_error (check : String → Option String) (hasChan : Bool)
    (closeErr : Option String) (post : List (Except String Row)) (e : String) :
    ∀ pre : List Row,
    (run check hasChan (pre.map Except.ok ++ Except.error e :: post) closeErr).lines
      = pre.flatMap (fun r => (processRow check r).1)
    ∧ (run check hasChan (pre.map Except.ok ++ Except.error e :: post) closeErr).runErr
      = some e := by
  intro pre
  induction pre with
  | nil =>
    rw [List.map_nil, List.nil_append]
    exact ⟨run_lines_cons_error check hasChan e post closeErr,
      run_err_cons_error check hasChan e post closeErr⟩
  | cons r rest ih =>
    rw [List.map_cons, List.cons_append]
    refine ⟨?_, ?_⟩
    · rw [run_lines_cons_ok, ih.1, List.flatMap_cons]
    · rw [run_err_cons_ok, ih.2]

theorem run_lines_chan_irrel (check : String → Option String) (hc1 hc2 : Bool)
    (closeErr : Option String) : ∀ cursor : List (Except String Row),
    (run check hc1 cursor closeErr).lines = (run check hc2 cursor closeErr).lines := by
  intro cursor
  induction cursor with
  | nil => rw [run_lines_nil, run_lines_nil]
  | cons x rest ih =>
    cases x with
    | error e => rw [run_lines_cons_error, run_lines_cons_error]
    | ok row => rw [run_lines_cons_ok, run_lines_cons_ok, ih]

theorem run_msgs_map (check : String → Option String) (closeErr : Option String) :
    ∀ rows : List Row,
    (run check true (rows.map Except.ok) closeErr).chanMsgs
      = rows.map (fun r => ⟨r.id, decodedContacts r, r.createdAt⟩) := by
  intro rows
  induction rows with
  | nil => rw [List.map_nil, run_msgs_nil, List.map_nil]
  | cons r rest ih =>
    rw [List.map_cons, run_msgs_cons_ok, if_pos rfl, ih, processRow_snd, List.map_cons,
      List.singleton_append]

theorem run_msgs_absent (check : String → Option String) (closeErr : Option String) :
    ∀ cursor : List (Except String Row),
    (run check false cursor closeErr).chanMsgs = [] := by
  intro cursor
  induction cursor with
  | nil => rw [run_msgs_nil]
  | cons x rest ih =>
    cases x with
    | error e => rw [run_msgs_cons_error]
    | ok row =>
      rw [run_msgs_cons_ok, ih]
      simp

theorem run_closed_iff (check : String → Option String) (closeErr : Option String) :
    ∀ rows : List Row,
    ((run check true (rows.map Except.ok) closeErr).chanClosed = true ↔ closeErr = none) := by
  intro rows
  induction rows with
  | nil =>
    cases closeErr with
    | none => rw [List.map_nil, run_closed_nil_none]; simp
    | some e => rw [List.map_nil, run_closed_nil_some]; simp
  | cons r rest ih =>
    rw [List.map_cons, run_closed_cons_ok, ih]

theorem run_closed_scan_error (check : String → Option String) (closeErr : Option String)
    (post : List (Except String Row)) (e : String) : ∀ pre : List Row,
    (run check true (pre.map Except.ok ++ Except.error e :: post) closeErr).chanClosed
      = false := by
  intro pre
  induction pre with
  | nil => rw [List.map_nil, List.nil_append, run_closed_cons_error]
  | cons r rest ih =>
    rw [List.map_cons, List.cons_append, run_closed_cons_ok, ih]

/-! ### Claim theorems -/

/-- Claim C1: when `validateContacts` returns an error, its string form is
exactly the concatenation, in original contact order, of one line per
failing contact — record id, tab, createdAt, tab, the literal token
`validation`, tab, the original (unstripped) contact Go-`%q`-quoted, tab,
the failure reason Go-`%q`-quoted, and a terminating newline — and (for a
newline-free `createdAt`) the number of lines equals the number of failing
contacts. -/
theorem validateContacts_output_shape (check : String → Option String) (id : Int)
    (createdAt : String) (contacts : List String) (s : String)
    (hs : validateContacts check id createdAt contacts = some s) :
    s = concatAll ((failingContacts check contacts).map
        (fun cp => probLine id createdAt cp.1 cp.2))
    ∧ ('\n' ∉ createdAt.data →
        newlineCount s = (failingContacts check contacts).length) := by
  have hvc : s = concatAll (contacts.map (lineOf check id createdAt)) := by
    rw [validateContacts_eq] at hs
    by_cases h : (concatAll (contacts.map (lineOf check id createdAt))).length ≠ 0
    · rw [if_pos h] at hs
      exact (Option.some.injEq _ _ ▸ hs).symm
    · rw [if_neg h] at hs
      exact Option.noConfusion hs
  have heq := concat_lineOf_eq check id createdAt contacts
  refine ⟨hvc.trans heq, fun hca => ?_⟩
  rw [hvc, heq, newlineCount_lines id createdAt hca]

/-- Witness for C1 at a concrete input: two failing contacts produce the
two expected lines. -/
theorem validateContacts_output_shape_instance :
    validateContacts checkStub 7 "2024-01-01" sampleContacts = some sampleProbs
    ∧ (sampleProbs = concatAll ((failingContacts checkStub sampleContacts).map
          (fun cp => probLine 7 "2024-01-01" cp.1 cp.2))
       ∧ ('\n' ∉ "2024-01-01".data →
          newlineCount sampleProbs = (failingContacts checkStub sampleContacts).length)) :=
  ⟨rfl, validateContacts_output_shape checkStub 7 "2024-01-01" sampleContacts sampleProbs rfl⟩

/-- Claim C2: a record whose payload fails to decode emits exactly one
`unmarshal` line and zero `validation` lines (validating the empty contact
list produces nothing), and the run continues with the remaining rows —
the overall outcome is that row's single line followed by the rest of the
run, with the returned error unaffected. -/
theorem unmarshal_failure_isolated (check : String → Option String) (hasChan : Bool)
    (row : Row) (rest : List (Except String Row)) (closeErr : Option String) (e : String)
    (hdec : unmarshalContact row.contact = Except.error e) :
    (processRow check row).1 = [unmarshalLine row.id row.createdAt row.contact e]
    ∧ validateContacts check row.id row.createdAt [] = none
    ∧ (run check hasChan (Except.ok row :: rest) closeErr).lines
        = unmarshalLine row.id row.createdAt row.contact e
          :: (run check hasChan rest closeErr).lines
    ∧ (run check hasChan (Except.ok row :: rest) closeErr).runErr
        = (run check hasChan rest closeErr).runErr := by
  have hp := processRow_error check row e hdec
  refine ⟨by rw [hp], rfl, ?_, rfl⟩
  rw [run_lines_cons_ok, hp]
  rfl

/-- Witness for C2 at a concrete input: an undecodable payload. -/
theorem unmarshal_failure_isolated_instance :
    unmarshalContact "bogus" = Except.error jsonTypeErr
    ∧ ((processRow checkStub ⟨9, "bogus", "2024-01-03"⟩).1
         = [unmarshalLine 9 "2024-01-03" "bogus" jsonTypeErr]
       ∧ validateContacts checkStub 9 "2024-01-03" [] = none
       ∧ (run checkStub true [Except.ok ⟨9, "bogus", "2024-01-03"⟩] none).lines
           = unmarshalLine 9 "2024-01-03" "bogus" jsonTypeErr
             :: (run checkStub true [] none).lines
       ∧ (run checkStub true [Except.ok ⟨9, "bogus", "2024-01-03"⟩] none).runErr
           = (run checkStub true [] none).runErr) :=
  ⟨rfl, unmarshal_failure_isolated checkStub true ⟨9, "bogus", "2024-01-03"⟩ [] none
    jsonTypeErr rfl⟩

/-- Claim C3: a contact without the `mailto:` tag is flagged with exactly
the reason `missing 'mailto:' prefix`; the result does not depend on the
email-syntax checker (it is not invoked), and as the sole contact of a
record it yields exactly that one line. -/
theorem contact_without_tag_flagged (check check2 : String → Option String) (id : Int)
    (createdAt c : String) (h : hasMailtoTag c = false) :
    contactProb check c = some "missing 'mailto:' prefix"
    ∧ contactProb check c = contactProb check2 c
    ∧ validateContacts check id createdAt [c]
        = some (probLine id createdAt c "missing 'mailto:' prefix") := by
  have h1 : ∀ chk : String → Option String,
      contactProb chk c = some "missing 'mailto:' prefix" := by
    intro chk
    unfold contactProb
    rw [if_neg (by simp [h])]
  exact ⟨h1 check, (h1 check).trans (h1 check2).symm,
    validateContacts_single check id createdAt c "missing 'mailto:' prefix" (h1 check)⟩

/-- Witness for C3 at a concrete input: a `tel:` contact. -/
theorem contact_without_tag_flagged_instance :
    hasMailtoTag "tel:+123" = false
    ∧ (contactProb checkStub "tel:+123" = some "missing 'mailto:' prefix"
       ∧ contactProb checkStub "tel:+123" = contactProb (fun _ => none) "tel:+123"
       ∧ validateContacts checkStub 7 "2024-01-01" ["tel:+123"]
           = some (probLine 7 "2024-01-01" "tel:+123" "missing 'mailto:' prefix")) :=
  ⟨rfl, contact_without_tag_flagged checkStub (fun _ => none) 7 "2024-01-01" "tel:+123" rfl⟩

/-- Claim C4: a contact with the `mailto:` tag has exactly that tag
stripped and the remainder passed to the external checker; when the
checker fails, the record gets exactly one line whose reason is the
checker's message and whose quoted contact is the original unstripped
string. -/
theorem contact_with_tag_checked (check : String → Option String) (id : Int)
    (createdAt c msg : String) (h : hasMailtoTag c = true) :
    contactProb check c = check (c.drop mailtoTag.length)
    ∧ (check (c.drop mailtoTag.length) = some msg →
        validateContacts check id createdAt [c] = some (probLine id createdAt c msg)) := by
  have h1 : contactProb check c = check (c.drop mailtoTag.length) := by
    unfold contactProb
    rw [if_pos h]
  exact ⟨h1, fun hchk =>
    validateContacts_single check id createdAt c msg (h1.trans hchk)⟩

/-- Witness for C4 at a concrete input: `mailto:bad` fails `checkStub`
with the checker's own message, quoted against the original string. -/
theorem contact_with_tag_checked_instance :
    hasMailtoTag "mailto:bad" = true
    ∧ contactProb checkStub "mailto:bad" = checkStub ("mailto:bad".drop mailtoTag.length)
    ∧ validateContacts checkStub 7 "2024-01-01" ["mailto:bad"]
        = some (probLine 7 "2024-01-01" "mailto:bad" "invalid email") := by
  have h := contact_with_tag_checked checkStub 7 "2024-01-01" "mailto:bad" "invalid email" rfl
  exact ⟨rfl, h.1, h.2 rfl⟩

/-- Claim C5: `run` (once the cursor is open) returns an error exactly when
a per-row scan fails or the close fails — a close error is terminal even
when every row was fine, and decode/validation problems never produce an
error — and on a scan error the lines are exactly those of the rows before
it: no later row is processed. -/
theorem run_failure_semantics (check : String → Option String) (hasChan : Bool)
    (rows : List (Except String Row)) (closeErr : Option String)
    (pre : List Row) (post : List (Except String Row)) (e : String) :
    ((run check hasChan rows closeErr).runErr = none ↔
      (∀ x ∈ rows, ∃ r, x = Except.ok r) ∧ closeErr = none)
    ∧ (run check hasChan (pre.map Except.ok ++ Except.error e :: post) closeErr).lines
        = pre.flatMap (fun r => (processRow check r).1)
    ∧ (run check hasChan (pre.map Except.ok ++ Except.error e :: post) closeErr).runErr
        = some e :=
  ⟨run_err_none_iff check hasChan closeErr rows,
    (run_scan_error check hasChan closeErr post e pre).1,
    (run_scan_error check hasChan closeErr post e pre).2⟩

/-- Witness for C5 at a concrete input: a cursor failing on its second
row, and a close error being terminal on an otherwise clean run. -/
theorem run_failure_semantics_instance :
    (run checkStub true cursor0 none).lines
      = [row0].flatMap (fun r => (processRow checkStub r).1)
    ∧ (run checkStub true cursor0 none).runErr = some "connection reset"
    ∧ (run checkStub true [Except.ok row0] (some "close failed")).runErr ≠ none := by
  have h1 := run_failure_semantics checkStub true cursor0 none [row0]
    [Except.ok row1] "connection reset"
  have h2 := run_failure_semantics checkStub true [Except.ok row0] (some "close failed")
    [] [] "x"
  refine ⟨h1.2.1, h1.2.2, fun hnone => ?_⟩
  rcases (h2.1.mp hnone) with ⟨-, hce⟩
  exact Option.noConfusion hce

/-- Claim C6: `validateContacts` returns `none` (no problem line) exactly
when every contact passes its check; in particular a record whose payload
decodes to all-passing contacts emits no line at all. -/
theorem validateContacts_none_iff (check : String → Option String) (id : Int)
    (ca : String) (contacts : List String) (row : Row) (cs : List String) :
    (validateContacts check id ca contacts = none ↔
      ∀ c ∈ contacts, contactProb check c = none)
    ∧ (unmarshalContact row.contact = Except.ok cs →
        (∀ c ∈ cs, contactProb check c = none) →
        (processRow check row).1 = []) := by
  refine ⟨validateContacts_none_iff_aux check id ca contacts, fun hdec hall => ?_⟩
  rw [processRow_ok check row cs hdec]
  rw [(validateContacts_none_iff_aux check row.id row.createdAt cs).mpr hall]

/-- Witness for C6 at a concrete input: a decodable payload whose contacts
all pass produces no output. -/
theorem validateContacts_none_iff_instance :
    unmarshalContact row0.contact = Except.ok ["mailto:ok@x"]
    ∧ validateContacts checkStub 7 "2024-01-01" ["mailto:ok@x"] = none
    ∧ (processRow checkStub row0).1 = [] := by
  have h := validateContacts_none_iff checkStub 7 "2024-01-01" ["mailto:ok@x"]
    row0 ["mailto:ok@x"]
  have hall : ∀ c ∈ ["mailto:ok@x"], contactProb checkStub c = none := by
    intro c hc
    rcases List.mem_singleton.mp hc with rfl
    rfl
  exact ⟨rfl, h.1.mpr hall, h.2 rfl hall⟩

/-- Claim C7: `writeResults` has no error outcome — a failed write is
turned into a log entry — and the set of destinations attempted depends
only on the configuration, never on either destination's failure: each
configured destination receives an attempt for every line. -/
theorem writeResults_tolerant (cfg : WriterCfg) (stdoutOk fileOk : Bool) (line : String) :
    (writeResults cfg stdoutOk fileOk line).attempted
      = (if cfg.writeToStdout then [Dest.stdout] else [])
        ++ (if cfg.hasResultsFile then [Dest.file] else [])
    ∧ (writeResults cfg stdoutOk fileOk line).delivered
      = (if cfg.writeToStdout && stdoutOk then [Dest.stdout] else [])
        ++ (if cfg.hasResultsFile && fileOk then [Dest.file] else [])
    ∧ (writeResults cfg stdoutOk fileOk line).logs
      = (if cfg.writeToStdout && !stdoutOk then ["Error while writing result to stdout"] else [])
        ++ (if cfg.hasResultsFile && !fileOk then ["Error while writing result to file"] else []) := by
  obtain ⟨ws, hf⟩ := cfg
  cases ws <;> cases hf <;> cases stdoutOk <;> cases fileOk <;> exact ⟨rfl, rfl, rfl⟩

/-- Witness for C7 at a concrete input: with both destinations configured
and stdout failing, the file still receives the line and the only effect
of the failure is a log entry. -/
theorem writeResults_tolerant_instance :
    (writeResults ⟨true, true⟩ false true "line").attempted = [Dest.stdout, Dest.file]
    ∧ (writeResults ⟨true, true⟩ false true "line").delivered = [Dest.file]
    ∧ (writeResults ⟨true, true⟩ false true "line").logs
        = ["Error while writing result to stdout"] := by
  have h := writeResults_tolerant ⟨true, true⟩ false true "line"
  exact ⟨h.1.trans rfl, (h.2.1).trans rfl, (h.2.2).trans rfl⟩

/-- Claim C8: the audit output is deterministic — the lines of a run are a
per-row function of the row contents (id, createdAt, rawContact) and the
checker, concatenated in row order, and do not depend on the presence of
the observation channel; two runs over the same row sequence therefore
produce identical output. -/
theorem run_deterministic (check : String → Option String) (hc1 hc2 : Bool)
    (rows : List Row) (cursor : List (Except String Row)) (closeErr : Option String) :
    (run check hc1 (rows.map Except.ok) closeErr).lines
      = rows.flatMap (fun r => (processRow check r).1)
    ∧ (run check hc1 cursor closeErr).lines = (run check hc2 cursor closeErr).lines :=
  ⟨run_lines_flatMap check hc1 closeErr rows,
    run_lines_chan_irrel check hc1 hc2 closeErr cursor⟩

/-- Witness for C8 at a concrete input. -/
theorem run_deterministic_instance :
    (run checkStub true [Except.ok row0, Except.ok row1] none).lines
      = [row0, row1].flatMap (fun r => (processRow checkStub r).1)
    ∧ (run checkStub true cursor0 none).lines = (run checkStub false cursor0 none).lines := by
  have h := run_deterministic checkStub true false [row0, row1] cursor0 none
  exact ⟨h.1, h.2⟩

/-- Claim C9 counterexample: a record whose payload does not decode still
produces a message on the observation channel (with an empty contact
list), so the channel does not receive copies of exactly the successfully
decoded records. -/
theorem chan_receives_undecoded_row :
    unmarshalContact "bogus" = Except.error jsonTypeErr
    ∧ (run checkStub true [Except.ok ⟨1, "bogus", "2024-01-01"⟩] none).chanMsgs
        = [⟨1, [], "2024-01-01"⟩] :=
  ⟨rfl, rfl⟩

/-- Claim C9 (amended): when present, the channel receives one message per
successfully scanned row — id, the decoded contacts (empty when decoding
failed), createdAt — in row order; it is closed exactly when the run
completes without error (and in particular not after a scan error), and it
receives nothing when absent. -/
theorem run_chan_messages (check : String → Option String) (rows pre : List Row)
    (cursor post : List (Except String Row)) (closeErr : Option String) (e : String) :
    (run check true (rows.map Except.ok) closeErr).chanMsgs
      = rows.map (fun r => ⟨r.id, decodedContacts r, r.createdAt⟩)
    ∧ ((run check true (rows.map Except.ok) closeErr).chanClosed = true ↔ closeErr = none)
    ∧ (run check true (pre.map Except.ok ++ Except.error e :: post) closeErr).chanClosed
        = false
    ∧ (run check false cursor closeErr).chanMsgs = [] :=
  ⟨run_msgs_map check closeErr rows,
    run_closed_iff check closeErr rows,
    run_closed_scan_error check closeErr post e pre,
    run_msgs_absent check closeErr cursor⟩

/-- Witness for C9 (amended) at a concrete input. -/
theorem run_chan_messages_instance :
    (run checkStub true [Except.ok row0, Except.ok row1] none).chanMsgs
      = [⟨row0.id, decodedContacts row0, row0.createdAt⟩,
         ⟨row1.id, decodedContacts row1, row1.createdAt⟩]
    ∧ ((run checkStub true [Except.ok row0, Except.ok row1] none).chanClosed = true
        ↔ (none : Option String) = none)
    ∧ (run checkStub true cursor0 none).chanClosed = false
    ∧ (run checkStub false cursor0 none).chanMsgs = [] := by
  have h := run_chan_messages checkStub [row0, row1] [row0] cursor0 [Except.ok row1]
    none "connection reset"
  exact ⟨h.1, h.2.1, h.2.2.1, h.2.2.2⟩

/-- Claim C10: the literal payload `null` decodes successfully to the empty
contact list, so such a record produces no unmarshal problem and no
validation problem at all. -/
theorem unmarshal_null_sentinel (check : String → Option String) (id : Int)
    (createdAt : String) :
    unmarshalContact "null" = Except.ok []
    ∧ processRow check ⟨id, "null", createdAt⟩ = ([], []) :=
  ⟨rfl, rfl⟩

/-- Witness for C10 at a concrete input. -/
theorem unmarshal_null_sentinel_instance :
    unmarshalContact "null" = Except.ok []
    ∧ processRow checkStub ⟨3, "null", "2024-01-04"⟩ = ([], []) :=
  unmarshal_null_sentinel checkStub 3 "2024-01-04"

end ContactAuditor
